import Mathlib

/-!
Verification of the FlowerSlide slide-deck export pipeline.

This file shallowly embeds the PPTX export routine of
`src/utils/pptxGenerator.ts` (text sanitization, image fetching with
timeout, filename derivation, and the document-assembly loop of
`downloadPPTX`) as executable Lean definitions, and proves the spec's
claims about it.  JavaScript strings are modelled as Lean `String`
(lists of characters), JavaScript object maps keyed by slide index as
`Nat → Option String`, and the network as an explicit oracle giving
each URL a latency and a result.
-/

namespace FlowerSlide

/-! ### Character-level helpers

`Char.toUpper` embeds JavaScript's `toUpperCase()` on the first
character, and `Char.isWhitespace` the whitespace class used by
`String.prototype.trim`.  The lemmas below establish the two facts the
sanitizer proofs need: upper-casing is idempotent and never turns a
non-whitespace character into whitespace. -/

theorem char_toNat_ofNat {n : Nat} (h : n.isValidChar) : (Char.ofNat n).toNat = n := by
  unfold Char.ofNat
  rw [dif_pos h]
  rfl

theorem toUpper_toNat_of_lower {c : Char} (h : 97 ≤ c.toNat ∧ c.toNat ≤ 122) :
    c.toUpper.toNat = c.toNat - 32 := by
  unfold Char.toUpper
  rw [if_pos ⟨h.1, h.2⟩]
  exact char_toNat_ofNat (Or.inl (by omega))

theorem toUpper_eq_of_not_lower {c : Char} (h : ¬ (97 ≤ c.toNat ∧ c.toNat ≤ 122)) :
    c.toUpper = c := by
  unfold Char.toUpper
  exact if_neg (fun hc => h ⟨hc.1, hc.2⟩)

theorem toUpper_toUpper (c : Char) : c.toUpper.toUpper = c.toUpper := by
  by_cases hr : 97 ≤ c.toNat ∧ c.toNat ≤ 122
  · apply toUpper_eq_of_not_lower
    rw [toUpper_toNat_of_lower hr]
    omega
  · rw [toUpper_eq_of_not_lower hr, toUpper_eq_of_not_lower hr]

theorem isWhitespace_toNat {c : Char} (h : c.isWhitespace = true) :
    c.toNat = 32 ∨ c.toNat = 9 ∨ c.toNat = 13 ∨ c.toNat = 10 := by
  simp only [Char.isWhitespace, Bool.or_eq_true, decide_eq_true_eq] at h
  rcases h with ((h | h) | h) | h <;> subst h <;> decide

theorem not_ws_of_toNat {c : Char}
    (h : ¬ (c.toNat = 32 ∨ c.toNat = 9 ∨ c.toNat = 13 ∨ c.toNat = 10)) :
    c.isWhitespace = false := by
  cases hw : c.isWhitespace
  · rfl
  · exact absurd (isWhitespace_toNat hw) h

theorem toUpper_not_ws {c : Char} (h : c.isWhitespace = false) :
    c.toUpper.isWhitespace = false := by
  by_cases hr : 97 ≤ c.toNat ∧ c.toNat ≤ 122
  · apply not_ws_of_toNat
    rw [toUpper_toNat_of_lower hr]
    omega
  · rw [toUpper_eq_of_not_lower hr]
    exact h

/-! ### Trimming

`String.prototype.trim` removes leading and trailing whitespace.  We
embed it on character lists: drop the leading whitespace run with
`List.dropWhile`, then the trailing run with `dropTrailing`. -/

def dropTrailing (p : Char → Bool) : List Char → List Char
  | [] => []
  | c :: cs =>
    if dropTrailing p cs = [] then (if p c then [] else [c])
    else c :: dropTrailing p cs

/-- Embedding of `text.trim()` from `sanitizeText`. -/
def trimChars (l : List Char) : List Char :=
  dropTrailing Char.isWhitespace (l.dropWhile Char.isWhitespace)

theorem dropWhile_head_not {p : Char → Bool} :
    ∀ {l : List Char} {c : Char} {cs : List Char},
      l.dropWhile p = c :: cs → p c = false := by
  intro l
  induction l with
  | nil => intro c cs h; simp at h
  | cons a l ih =>
    intro c cs h
    cases hp : p a
    · rw [List.dropWhile_cons_of_neg (by simp [hp])] at h
      rw [List.cons.injEq] at h
      rw [← h.1]
      exact hp
    · rw [List.dropWhile_cons_of_pos (by simp [hp])] at h
      exact ih h

theorem dropTrailing_head {p : Char → Bool} :
    ∀ {l : List Char} {c : Char} {cs : List Char},
      dropTrailing p l = c :: cs → l.head? = some c := by
  intro l
  cases l with
  | nil => intro c cs h; simp [dropTrailing] at h
  | cons a l' =>
    intro c cs h
    simp only [dropTrailing] at h
    cases hd : dropTrailing p l' with
    | nil =>
      rw [hd] at h
      cases hp : p a <;> rw [hp] at h <;> simp_all
    | cons d ds =>
      rw [hd] at h
      simp only [List.cons_ne_nil, if_false] at h
      rw [List.cons.injEq] at h
      simp [h.1]

theorem dropTrailing_getLast_not {p : Char → Bool} :
    ∀ {l : List Char} {c : Char},
      (dropTrailing p l).getLast? = some c → p c = false := by
  intro l
  induction l with
  | nil => intro c h; simp [dropTrailing] at h
  | cons a l' ih =>
    intro c h
    simp only [dropTrailing] at h
    cases hd : dropTrailing p l' with
    | nil =>
      rw [hd] at h
      cases hp : p a <;> rw [hp] at h <;> simp_all
    | cons d ds =>
      rw [hd] at h
      simp only [List.cons_ne_nil, if_false] at h
      rw [List.getLast?_cons_cons, ← hd] at h
      exact ih h

theorem dropTrailing_eq_self {p : Char → Bool} :
    ∀ {l : List Char},
      (∀ c, l.getLast? = some c → p c = false) → dropTrailing p l = l := by
  intro l
  induction l with
  | nil => intro _; rfl
  | cons a l' ih =>
    intro h
    cases l' with
    | nil =>
      have ha := h a (by simp)
      simp [dropTrailing, ha]
    | cons b l'' =>
      have hb : dropTrailing p (b :: l'') = b :: l'' := by
        apply ih
        intro c hc
        exact h c (by rw [List.getLast?_cons_cons]; exact hc)
      simp only [dropTrailing] at hb ⊢
      rw [hb]
      simp

theorem dropTrailing_eq_nil {p : Char → Bool} :
    ∀ {l : List Char}, dropTrailing p l = [] → l.dropWhile p = [] := by
  intro l
  induction l with
  | nil => intro _; rfl
  | cons a l' ih =>
    intro h
    simp only [dropTrailing] at h
    cases hd : dropTrailing p l' with
    | nil =>
      rw [hd] at h
      cases hp : p a
      · rw [hp] at h; simp at h
      · rw [List.dropWhile_cons_of_pos (by simp [hp])]
        exact ih hd
    | cons d ds =>
      rw [hd] at h
      simp at h

theorem dropTrailing_dropWhile_comm {p : Char → Bool} :
    ∀ l : List Char, dropTrailing p (l.dropWhile p) = (dropTrailing p l).dropWhile p := by
  intro l
  induction l with
  | nil => rfl
  | cons a l' ih =>
    cases hp : p a
    · rw [List.dropWhile_cons_of_neg (by simp [hp])]
      simp only [dropTrailing]
      cases hd : dropTrailing p l' with
      | nil => simp [hp, List.dropWhile_cons]
      | cons d ds => simp [hp, List.dropWhile_cons]
    · rw [List.dropWhile_cons_of_pos (by simp [hp])]
      conv_rhs => rw [dropTrailing]
      cases hd : dropTrailing p l' with
      | nil =>
        rw [ih, hd]
        simp [hp, List.dropWhile_cons]
      | cons d ds =>
        rw [ih, hd]
        simp [hp, List.dropWhile_cons]

/-! ### The sanitizer

Embedding of `sanitizeText` from `src/utils/pptxGenerator.ts`:
`if (!text) return ""` and the `trimmed.length === 0` early return both
land in the `[]` branch; otherwise the first character of the trimmed
string is upper-cased and the rest is kept verbatim
(`trimmed.charAt(0).toUpperCase() + trimmed.slice(1)`). -/

def sanitizeChars (l : List Char) : List Char :=
  match trimChars l with
  | [] => []
  | c :: cs => c.toUpper :: cs

def sanitizeText (s : String) : String :=
  String.mk (sanitizeChars s.data)

/-- Modelled from the spec's wording of sanitization: trim whitespace
from both ends (here: trailing first, then leading), then upper-case
the first character; an empty or whitespace-only string yields the
empty string.  Independent formulation to be compared with
`sanitizeText`, which is embedded from the source. -/
def trimSpec (l : List Char) : List Char :=
  (dropTrailing Char.isWhitespace l).dropWhile Char.isWhitespace

def sanitizeSpec (s : String) : String :=
  match trimSpec s.data with
  | [] => ""
  | c :: cs => String.mk (c.toUpper :: cs)

theorem trimChars_eq_trimSpec (l : List Char) : trimChars l = trimSpec l :=
  dropTrailing_dropWhile_comm l

theorem sanitizeChars_idem (l : List Char) :
    sanitizeChars (sanitizeChars l) = sanitizeChars l := by
  cases h : trimChars l with
  | nil =>
    have hl : sanitizeChars l = [] := by simp only [sanitizeChars, h]
    rw [hl]
    rfl
  | cons c cs =>
    have h' : dropTrailing Char.isWhitespace (l.dropWhile Char.isWhitespace) = c :: cs := h
    have hl : sanitizeChars l = c.toUpper :: cs := by simp only [sanitizeChars, h]
    have hcw : c.isWhitespace = false := by
      have hh : (l.dropWhile Char.isWhitespace).head? = some c :=
        dropTrailing_head (p := Char.isWhitespace) h'
      cases hdw : l.dropWhile Char.isWhitespace with
      | nil => rw [hdw] at hh; simp at hh
      | cons a t =>
        rw [hdw] at hh
        simp only [List.head?_cons, Option.some.injEq] at hh
        rw [← hh]
        exact dropWhile_head_not hdw
    have hlast : ∀ x, (c :: cs).getLast? = some x → x.isWhitespace = false := by
      intro x hx
      exact dropTrailing_getLast_not (p := Char.isWhitespace)
        (l := l.dropWhile Char.isWhitespace) (by rw [h']; exact hx)
    have h2 : trimChars (c.toUpper :: cs) = c.toUpper :: cs := by
      rw [trimChars]
      rw [List.dropWhile_cons_of_neg (by simp [toUpper_not_ws hcw])]
      apply dropTrailing_eq_self
      intro x hx
      cases cs with
      | nil =>
        simp only [List.getLast?_singleton, Option.some.injEq] at hx
        rw [← hx]
        exact toUpper_not_ws hcw
      | cons d ds =>
        rw [List.getLast?_cons_cons] at hx
        exact hlast x (by rw [List.getLast?_cons_cons]; exact hx)
    rw [hl]
    simp only [sanitizeChars, h2]
    simp [toUpper_toUpper]

/-- Claim C5: text sanitization is idempotent — for every string `s`,
`sanitizeText (sanitizeText s) = sanitizeText s`. -/
theorem C5_sanitize_idempotent (s : String) :
    sanitizeText (sanitizeText s) = sanitizeText s := by
  unfold sanitizeText
  rw [sanitizeChars_idem]

theorem sanitizeChars_of_all_ws {l : List Char}
    (h : ∀ c ∈ l, c.isWhitespace = true) : sanitizeChars l = [] := by
  have hdw : l.dropWhile Char.isWhitespace = [] :=
    List.dropWhile_eq_nil_iff.mpr h
  simp only [sanitizeChars, trimChars, hdw]
  rfl

/-- Claim C6: sanitization returns the input trimmed of leading and
trailing whitespace with its first character upper-cased (stated as
agreement with `sanitizeSpec`, an independent rendering of the spec's
words), and an empty or whitespace-only string yields the empty
string. -/
theorem C6_sanitize_trims_and_capitalizes (s : String) :
    sanitizeText s = sanitizeSpec s ∧
    ((∀ c ∈ s.data, c.isWhitespace = true) → sanitizeText s = "") := by
  constructor
  · simp only [sanitizeText, sanitizeChars, sanitizeSpec, trimChars_eq_trimSpec]
    cases trimSpec s.data <;> rfl
  · intro h
    rw [sanitizeText, sanitizeChars_of_all_ws h]

/-- Witness for C6 at concrete inputs: a whitespace-only string
sanitizes to the empty string, and a concrete mixed string agrees with
the spec-level sanitizer. -/
theorem C6_witness :
    sanitizeText (String.mk [ ' ', '\t' ]) = "" ∧
    sanitizeText (String.mk [ ' ', 'h', 'i' ]) = sanitizeSpec (String.mk [ ' ', 'h', 'i' ]) := by
  constructor
  · exact (C6_sanitize_trims_and_capitalizes (String.mk [ ' ', '\t' ])).2 (by decide)
  · exact (C6_sanitize_trims_and_capitalizes (String.mk [ ' ', 'h', 'i' ])).1

/-! ### Filename derivation

Embedding of the `safeTitle` computation in `downloadPPTX`:
`presentation.mainTitle.replace(/[^a-zA-Z0-9а-яА-Я ]/g, "").substring(0, 30) || "Presentation"`.
The regex keeps Latin letters, Cyrillic letters in the ranges
`а`–`я` and `А`–`Я`, digits and spaces; `substring(0, 30)` keeps the
first 30 UTF-16 units (all allowed characters are single units); the
`||` falls back to the default on the empty string. -/

def isAllowedFilenameChar (c : Char) : Bool :=
  (('a' ≤ c && c ≤ 'z') || ('A' ≤ c && c ≤ 'Z') || ('0' ≤ c && c ≤ '9') ||
   ('а' ≤ c && c ≤ 'я') || ('А' ≤ c && c ≤ 'Я') || (c = ' '))

def defaultFileName : String := "Presentation"

def safeTitle (title : String) : String :=
  let replaced := String.mk (title.data.filter isAllowedFilenameChar)
  let truncated := String.mk (replaced.data.take 30)
  if truncated = "" then defaultFileName else truncated

/-- Modelled from the spec's wording of filename derivation: keep only
the allow-listed characters of the main title, bound the result to a
30-character prefix, and use the fixed default name when nothing is
left.  Independent formulation to be compared with `safeTitle`, which
is embedded from the source. -/
def safeTitleSpec (title : String) : String :=
  let kept := (title.data.filter isAllowedFilenameChar).take 30
  if kept.isEmpty then defaultFileName else String.mk kept

/-- Claim C7: the output filename is the main title stripped to the
allow-list (Latin and Cyrillic letters, digits, spaces) and truncated
to a 30-character prefix, with the fixed default name when the
stripped title is empty; the result never exceeds 30 characters. -/
theorem C7_filename_derivation (title : String) :
    safeTitle title = safeTitleSpec title ∧ (safeTitle title).length ≤ 30 := by
  have heq : safeTitle title = safeTitleSpec title := by
    unfold safeTitle safeTitleSpec
    cases hk : (title.data.filter isAllowedFilenameChar).take 30 with
    | nil => simp [hk]
    | cons a l => simp [hk, String.ext_iff]
  refine ⟨heq, ?_⟩
  rw [heq]
  unfold safeTitleSpec
  cases hk : (title.data.filter isAllowedFilenameChar).take 30 with
  | nil => simp [hk]; decide
  | cons a l =>
    simp only [hk, List.isEmpty_cons, if_false, Bool.false_eq_true]
    show (a :: l).length ≤ 30
    rw [← hk]
    have := List.length_take_le 30 (title.data.filter isAllowedFilenameChar)
    omega

/-- The spec's concrete filename examples, checked against the embedded
derivation: a mixed Cyrillic title keeps only allowed characters, and a
title of only disallowed characters falls back to the default name. -/
theorem safeTitle_examples :
    safeTitle (String.mk [ 'М', 'о', 'я', ' ', '2', '!', '!' ]) =
      String.mk [ 'М', 'о', 'я', ' ', '2' ] ∧
    safeTitle (String.mk [ '!', '?', '~' ]) = defaultFileName := by
  constructor <;> rfl

/-! ### Remote image fetch

Embedding of `getBase64FromUrl`.  The network is an oracle assigning
each URL a latency in milliseconds and a result; the
`AbortController` in the source fires after 4000 ms, so any request
whose latency reaches that bound resolves to `""` through the `catch`
branch.  `NetResult.fail` covers a network error and a `FileReader`
error (both reach the `catch`); `NetResult.success ok dataUri` is a
completed response with `response.ok = ok` whose body the `FileReader`
encodes as `dataUri`. -/

def fetchTimeoutMs : Nat := 4000

inductive NetResult where
  | fail : NetResult
  | success : Bool → String → NetResult
deriving DecidableEq, Repr

def NetOracle : Type := String → Nat × NetResult

def dataImageMarker : String := "data:image"

/-- Embedding of JavaScript `String.prototype.startsWith`. -/
def startsWithS (pre s : String) : Bool := List.isPrefixOf pre.data s.data

/-- Embedding of `getBase64FromUrl`: resolves to the fetched data URI,
or to `""` on timeout, network/read error, non-2xx status
(`!response.ok`), or a payload whose data URI does not start with
`data:image` (`result && result.startsWith('data:image')`).  Total:
every failure path in the source is caught and resolves with `""`,
never a rejection. -/
def getBase64FromUrl (net : NetOracle) (url : String) : String :=
  let r := net url
  if fetchTimeoutMs ≤ r.1 then ""
  else
    match r.2 with
    | NetResult.fail => ""
    | NetResult.success ok dataUri =>
      if ok = false then ""
      else if (!(dataUri == "")) && startsWithS dataImageMarker dataUri then dataUri
      else ""

/-- The failure conditions named by claim C1 for one request: timeout
reached, network or read error, non-2xx status, or a payload that does
not declare an image media type. -/
def fetchFails (lat : Nat) (r : NetResult) : Bool :=
  match r with
  | NetResult.fail => true
  | NetResult.success ok uri =>
    decide (fetchTimeoutMs ≤ lat) || !ok || !(startsWithS dataImageMarker uri)

/-- Claim C1: every slide-image fetch is bounded by the fixed
4-second timeout, and on timeout, non-2xx response, any network or
read error, or a payload whose encoded data URI does not declare an
image media type, the fetch resolves to `""` (the image block is then
omitted); the result is always either `""` or a data URI declaring an
image media type, and the embedded function is total — no failure
escapes to abort document generation. -/
theorem C1_fetch_graceful (net : NetOracle) (url : String) :
    (fetchFails (net url).1 (net url).2 = true → getBase64FromUrl net url = "") ∧
    (getBase64FromUrl net url = "" ∨
      startsWithS dataImageMarker (getBase64FromUrl net url) = true) := by
  unfold getBase64FromUrl
  rcases hnet : net url with ⟨lat, r⟩
  simp only [hnet]
  by_cases hto : fetchTimeoutMs ≤ lat
  · simp [hto, fetchFails]
  · cases r with
    | fail => simp [hto, fetchFails]
    | success ok uri =>
      cases ok with
      | false => simp [hto, fetchFails]
      | true =>
        by_cases hsw : startsWithS dataImageMarker uri = true
        · by_cases hu : uri = ""
          · subst hu
            simp [hto, fetchFails, hsw]
          · simp [hto, fetchFails, hsw, hu]
        · simp [hto, fetchFails, hsw]

/-- A network oracle whose every request takes 5 seconds and then
fails: used to witness C1 at a concrete input. -/
def netAlwaysDown : NetOracle := fun _ => (5000, NetResult.fail)

/-- Witness for C1: under `netAlwaysDown` a concrete fetch satisfies
the failure condition and resolves to the empty string. -/
theorem C1_witness : getBase64FromUrl netAlwaysDown (String.mk [ 'u' ]) = "" :=
  (C1_fetch_graceful netAlwaysDown (String.mk [ 'u' ])).1 (by decide)

/-! ### Data model (src/types.ts) -/

structure ThemeHex where
  bg : String
  text : String
  accent : String
  secondary : String
deriving DecidableEq, Repr

structure ThemeColors where
  bg : String
  text : String
  accent : String
  secondary : String
  hex : ThemeHex
deriving DecidableEq, Repr

structure Theme where
  id : String
  name : String
  colors : ThemeColors
deriving DecidableEq, Repr

structure Slide where
  title : String
  content : List String
  imageKeyword : String
  speakerNotes : Option String
deriving DecidableEq, Repr

structure Presentation where
  mainTitle : String
  subTitle : Option String
  slides : List Slide
  includeImages : Bool
deriving DecidableEq, Repr

/-- JavaScript truthiness of an optional string: `undefined`, `null`
and `""` are falsy. -/
def jsTruthy : Option String → Bool
  | none => false
  | some s => !(s == "")

/-- Embedding of `a || b` on an optional string and a string default,
as in `imageSeeds[i] || slide.imageKeyword`. -/
def jsOrDefault (o : Option String) (d : String) : String :=
  if jsTruthy o then Option.getD o d else d

def emptyStr : String := ""

/-! ### Document model

The PptxGenJS surface used by `downloadPPTX`, reduced to the content
it records: a single master slide (background, slide-number label,
optional decorative bottom bar) and pages carrying text blocks,
separator lines, image blocks and speaker notes.  Geometry options
(x/y/w/h percentages) are not modelled; no claim touches them. -/

structure TextBlock where
  runs : List String
  color : String
  fontSize : Nat
  bold : Bool
deriving DecidableEq, Repr

inductive Background where
  | image : String → Background
  | flat : String → Background
deriving DecidableEq, Repr

structure Page where
  masterName : String
  texts : List TextBlock
  separatorLines : List String
  images : List String
  notes : Option String
deriving DecidableEq, Repr

structure MasterSlide where
  title : String
  background : Background
  slideNumberColor : String
  slideNumberFontSize : Nat
  bottomBarFill : Option String
deriving DecidableEq, Repr

structure Document where
  title : String
  author : String
  master : MasterSlide
  pages : List Page
deriving DecidableEq, Repr

/-! ### Embedding of `downloadPPTX` -/

def masterSlideName : String := "MASTER_SLIDE"

def picsumBase : String := "https://picsum.photos/seed/"

def picsumTail : String := "/800/800"

/-- URL built for a seed: `https://picsum.photos/seed/<seed>/800/800`. -/
def picsumUrl (seed : String) : String := picsumBase ++ seed ++ picsumTail

/-- Embedding of `pres.defineSlideMaster({...})`: custom background
image if truthy else the theme's flat background color; slide number
in the theme's secondary hex color at 12 pt; the accent bottom bar
only when no custom background is supplied. -/
def buildMaster (theme : Theme) (backgroundImage : Option String) : MasterSlide :=
  { title := masterSlideName
    background :=
      if jsTruthy backgroundImage then Background.image (Option.getD backgroundImage emptyStr)
      else Background.flat theme.colors.hex.bg
    slideNumberColor := theme.colors.hex.secondary
    slideNumberFontSize := 12
    bottomBarFill :=
      if jsTruthy backgroundImage then none else some theme.colors.hex.accent }

/-- Embedding of the cover-slide block: sanitized main title (theme
text color, 44 pt, bold) and, when the subtitle is truthy, the
sanitized subtitle (accent color, 24 pt). -/
def buildCoverPage (theme : Theme) (p : Presentation) : Page :=
  { masterName := masterSlideName
    texts :=
      [ { runs := [sanitizeText p.mainTitle], color := theme.colors.hex.text,
          fontSize := 44, bold := true } ] ++
      (if jsTruthy p.subTitle then
        [ { runs := [sanitizeText (Option.getD p.subTitle emptyStr)],
            color := theme.colors.hex.accent, fontSize := 24, bold := false } ]
       else [])
    separatorLines := []
    images := []
    notes := none }

/-- Embedding of the per-slide image selection:
`let base64Image = customSlideImages[i]; if (!base64Image) { fetch } if (base64Image) { addImage }`.
Returns the image embedded on the slide (if any) and the list of
network requests issued. -/
def slideImage (net : NetOracle) (custom seedOv : Option String) (keyword : String) :
    Option String × List String :=
  let afterFetch :=
    if jsTruthy custom then (custom, ([] : List String))
    else
      let seed := jsOrDefault seedOv keyword
      let url := picsumUrl seed
      let fetched := getBase64FromUrl net url
      (if !(fetched == "") then some fetched else custom, [url])
  (if jsTruthy afterFetch.1 then afterFetch.1 else none, afterFetch.2)

def optionToList : Option String → List String
  | some d => [d]
  | none => []

/-- Embedding of one iteration of the content-slide loop: sanitized
title (accent, 32 pt, bold), accent separator line, bullet block (one
sanitized run per bullet, theme text color, 18 pt), the image block
when `includeImages` selects one, and sanitized speaker notes when
truthy. -/
def buildContentPage (net : NetOracle) (theme : Theme) (includeImages : Bool)
    (custom seedOv : Option String) (slide : Slide) : Page × List String :=
  let img :=
    if includeImages then slideImage net custom seedOv slide.imageKeyword
    else (none, [])
  ({ masterName := masterSlideName
     texts :=
       [ { runs := [sanitizeText slide.title], color := theme.colors.hex.accent,
           fontSize := 32, bold := true },
         { runs := slide.content.map sanitizeText, color := theme.colors.hex.text,
           fontSize := 18, bold := false } ]
     separatorLines := [theme.colors.hex.accent]
     images := optionToList img.1
     notes :=
       if jsTruthy slide.speakerNotes then
         some (sanitizeText (Option.getD slide.speakerNotes emptyStr))
       else none },
   img.2)

/-- The content-slide loop `for (let i = 0; i < slides.length; i++)`,
carrying the running index so the side maps are read at the right
keys; also accumulates the fetch URLs issued, in order. -/
def buildSlides (net : NetOracle) (theme : Theme) (includeImages : Bool)
    (imageSeeds customSlideImages : Nat → Option String) :
    Nat → List Slide → List Page × List String
  | _, [] => ([], [])
  | i, s :: rest =>
    let pr := buildContentPage net theme includeImages (customSlideImages i) (imageSeeds i) s
    let prs := buildSlides net theme includeImages imageSeeds customSlideImages (i + 1) rest
    (pr.1 :: prs.1, pr.2 ++ prs.2)

def authorName : String := "FlowerSlide AI"

def pptxExt : String := ".pptx"

def saveErrorLog : String := "PPTX Generation Error:"

def saveErrorAlert : String := "Ошибка при сохранении файла. Попробуйте еще раз."

/-- Everything observable about one export run: the (unchanged) deck,
the assembled document, the network requests issued, the saved file
name (none when the write failed), and the console/alert output of the
`catch` branch. -/
structure ExportResult where
  deck : Presentation
  doc : Document
  fetchedUrls : List String
  savedFileName : Option String
  loggedErrors : List String
  alerts : List String
deriving DecidableEq, Repr

/-- Embedding of `downloadPPTX`.  `writeOk` models whether the final
`pres.writeFile` succeeds; the PptxGenJS calls before it only record
content, so document assembly and serialization happen inside the
`try` block, whose `catch` logs the error and raises one alert.  The
function is total — no branch rethrows — and `deck` carries the input
presentation through unchanged, as the source never writes to it. -/
def downloadPPTX (net : NetOracle) (writeOk : Bool) (presentation : Presentation)
    (theme : Theme) (imageSeeds : Nat → Option String)
    (backgroundImage : Option String) (customSlideImages : Nat → Option String) :
    ExportResult :=
  let master := buildMaster theme backgroundImage
  let cover := buildCoverPage theme presentation
  let body := buildSlides net theme presentation.includeImages imageSeeds
    customSlideImages 0 presentation.slides
  let doc : Document :=
    { title := presentation.mainTitle, author := authorName,
      master := master, pages := cover :: body.1 }
  if writeOk then
    { deck := presentation, doc := doc, fetchedUrls := body.2,
      savedFileName := some (safeTitle presentation.mainTitle ++ pptxExt),
      loggedErrors := [], alerts := [] }
  else
    { deck := presentation, doc := doc, fetchedUrls := body.2,
      savedFileName := none, loggedErrors := [saveErrorLog],
      alerts := [saveErrorAlert] }

/-! ### Theme catalog (src/utils/themes.ts) -/

def modernSlate : Theme :=
  { id := "modern-slate", name := "Modern Slate"
    colors :=
      { bg := "bg-slate-900", text := "text-slate-50", accent := "bg-indigo-500",
        secondary := "text-slate-400"
        hex :=
          { bg := "0f172a", text := "f8fafc", accent := "6366f1",
            secondary := "94a3b8" } } }

def cleanWhite : Theme :=
  { id := "clean-white", name := "Clean White"
    colors :=
      { bg := "bg-white", text := "text-gray-900", accent := "bg-blue-600",
        secondary := "text-gray-500"
        hex :=
          { bg := "ffffff", text := "111827", accent := "2563eb",
            secondary := "6b7280" } } }

def midnightPurple : Theme :=
  { id := "midnight-purple", name := "Midnight Purple"
    colors :=
      { bg := "bg-purple-950", text := "text-purple-50", accent := "bg-pink-500",
        secondary := "text-purple-300"
        hex :=
          { bg := "3b0764", text := "faf5ff", accent := "ec4899",
            secondary := "d8b4fe" } } }

def forestCalm : Theme :=
  { id := "forest-calm", name := "Forest Calm"
    colors :=
      { bg := "bg-stone-100", text := "text-stone-800", accent := "bg-emerald-600",
        secondary := "text-stone-600"
        hex :=
          { bg := "f5f5f4", text := "292524", accent := "059669",
            secondary := "57534e" } } }

def corporateBlue : Theme :=
  { id := "corporate-blue", name := "Corporate Blue"
    colors :=
      { bg := "bg-blue-900", text := "text-white", accent := "bg-amber-400",
        secondary := "text-blue-200"
        hex :=
          { bg := "1e3a8a", text := "ffffff", accent := "fbbf24",
            secondary := "bfdbfe" } } }

def sunsetWarm : Theme :=
  { id := "sunset-warm", name := "Sunset Warm"
    colors :=
      { bg := "bg-orange-50", text := "text-gray-900", accent := "bg-orange-500",
        secondary := "text-gray-600"
        hex :=
          { bg := "fff7ed", text := "111827", accent := "f97316",
            secondary := "4b5563" } } }

def PRESENTATION_THEMES : List Theme :=
  [modernSlate, cleanWhite, midnightPurple, forestCalm, corporateBlue, sunsetWarm]

/-! ### Structure of the assembled document -/

theorem downloadPPTX_pages_eq (net : NetOracle) (writeOk : Bool) (p : Presentation)
    (theme : Theme) (seeds : Nat → Option String) (bg : Option String)
    (customs : Nat → Option String) :
    (downloadPPTX net writeOk p theme seeds bg customs).doc.pages
      = buildCoverPage theme p ::
        (buildSlides net theme p.includeImages seeds customs 0 p.slides).1 := by
  cases writeOk <;> rfl

theorem downloadPPTX_master_eq (net : NetOracle) (writeOk : Bool) (p : Presentation)
    (theme : Theme) (seeds : Nat → Option String) (bg : Option String)
    (customs : Nat → Option String) :
    (downloadPPTX net writeOk p theme seeds bg customs).doc.master
      = buildMaster theme bg := by
  cases writeOk <;> rfl

theorem downloadPPTX_urls_eq (net : NetOracle) (writeOk : Bool) (p : Presentation)
    (theme : Theme) (seeds : Nat → Option String) (bg : Option String)
    (customs : Nat → Option String) :
    (downloadPPTX net writeOk p theme seeds bg customs).fetchedUrls
      = (buildSlides net theme p.includeImages seeds customs 0 p.slides).2 := by
  cases writeOk <;> rfl

theorem buildSlides_length (net : NetOracle) (theme : Theme) (inc : Bool)
    (seeds customs : Nat → Option String) :
    ∀ (slides : List Slide) (i : Nat),
      (buildSlides net theme inc seeds customs i slides).1.length = slides.length := by
  intro slides
  induction slides with
  | nil => intro i; rfl
  | cons s rest ih =>
    intro i
    simp only [buildSlides, List.length_cons]
    rw [ih]

theorem buildSlides_get (net : NetOracle) (theme : Theme) (inc : Bool)
    (seeds customs : Nat → Option String) :
    ∀ (slides : List Slide) (i k : Nat),
      (buildSlides net theme inc seeds customs i slides).1[k]? =
        (slides[k]?).map
          (fun s => (buildContentPage net theme inc (customs (i + k)) (seeds (i + k)) s).1) := by
  intro slides
  induction slides with
  | nil => intro i k; simp [buildSlides]
  | cons s rest ih =>
    intro i k
    cases k with
    | zero => simp [buildSlides]
    | succ k' =>
      have harith : i + 1 + k' = i + (k' + 1) := by omega
      simp only [buildSlides, List.getElem?_cons_succ]
      rw [ih (i + 1) k', harith]

theorem buildSlides_urls_nil (net : NetOracle) (theme : Theme)
    (seeds customs : Nat → Option String) :
    ∀ (slides : List Slide) (i : Nat),
      (buildSlides net theme false seeds customs i slides).2 = [] := by
  intro slides
  induction slides with
  | nil => intro i; rfl
  | cons s rest ih =>
    intro i
    simp [buildSlides, buildContentPage, ih]

theorem buildSlides_masterName (net : NetOracle) (theme : Theme) (inc : Bool)
    (seeds customs : Nat → Option String) :
    ∀ (slides : List Slide) (i : Nat) (pg : Page),
      pg ∈ (buildSlides net theme inc seeds customs i slides).1 →
        pg.masterName = masterSlideName := by
  intro slides
  induction slides with
  | nil => intro i pg h; simp [buildSlides] at h
  | cons s rest ih =>
    intro i pg h
    simp only [buildSlides, List.mem_cons] at h
    rcases h with h1 | h2
    · rw [h1]; simp [buildContentPage]
    · exact ih (i + 1) pg h2

theorem jsTruthy_some (s : String) : jsTruthy (some s) = !(s == "") := rfl

theorem jsOrDefault_falsy {o : Option String} (h : jsTruthy o = false) (d : String) :
    jsOrDefault o d = d := by
  simp [jsOrDefault, h]

/-- When the custom image is truthy it is embedded as-is and no fetch
is issued. -/
theorem slideImage_of_truthy {net : NetOracle} {custom seedOv : Option String}
    {keyword : String} (hc : jsTruthy custom = true) :
    slideImage net custom seedOv keyword = (custom, []) := by
  simp [slideImage, hc]

/-- When the custom image is falsy one fetch is issued and its result
is embedded when non-empty, with the block omitted otherwise. -/
theorem slideImage_of_falsy {net : NetOracle} {custom seedOv : Option String}
    {keyword : String} (hc : jsTruthy custom = false) :
    slideImage net custom seedOv keyword =
      (if getBase64FromUrl net (picsumUrl (jsOrDefault seedOv keyword)) == ""
       then none
       else some (getBase64FromUrl net (picsumUrl (jsOrDefault seedOv keyword))),
       [picsumUrl (jsOrDefault seedOv keyword)]) := by
  cases hf : getBase64FromUrl net (picsumUrl (jsOrDefault seedOv keyword)) == "" with
  | true => simp [slideImage, hc, hf]
  | false => simp [slideImage, hc, hf, jsTruthy_some]

/-! ### Claims about `downloadPPTX` -/

/-- Claim C3: the exported document contains exactly N+1 pages for a
deck of N slides — the cover page first, then one page per slide in
deck order (page k+1 renders slide k); with zero slides the page list
is the cover alone. -/
theorem C3_cover_then_one_page_per_slide (net : NetOracle) (writeOk : Bool)
    (p : Presentation) (theme : Theme) (seeds : Nat → Option String)
    (bg : Option String) (customs : Nat → Option String) :
    (downloadPPTX net writeOk p theme seeds bg customs).doc.pages.length
        = p.slides.length + 1 ∧
    (downloadPPTX net writeOk p theme seeds bg customs).doc.pages[0]?
        = some (buildCoverPage theme p) ∧
    ∀ k : Nat,
      (downloadPPTX net writeOk p theme seeds bg customs).doc.pages[k + 1]? =
        (p.slides[k]?).map
          (fun s => (buildContentPage net theme p.includeImages (customs k) (seeds k) s).1) := by
  refine ⟨?_, ?_, ?_⟩
  · rw [downloadPPTX_pages_eq]
    simp [buildSlides_length]
  · rw [downloadPPTX_pages_eq]
    simp
  · intro k
    rw [downloadPPTX_pages_eq, List.getElem?_cons_succ,
      buildSlides_get net theme p.includeImages seeds customs p.slides 0 k]
    simp

/-- Claim C2: with `includeImages` enabled, the image embedded on the
page of slide k is exactly the one `slideImage` selects, and that
selection follows the precedence of the source: a truthy custom image
is embedded as-is with no network request; otherwise one fetch is
issued for the seed override (or the slide's keyword) and its result
is embedded when non-empty, the block being omitted otherwise.  In
particular, whenever both a custom image and a fetch-derived image are
available, the custom one is embedded. -/
theorem C2_image_precedence (net : NetOracle) (writeOk : Bool) (p : Presentation)
    (theme : Theme) (seeds : Nat → Option String) (bg : Option String)
    (customs : Nat → Option String) (k : Nat) (s : Slide)
    (hs : p.slides[k]? = some s) (hinc : p.includeImages = true) :
    ((downloadPPTX net writeOk p theme seeds bg customs).doc.pages[k + 1]?).map Page.images
        = some (optionToList (slideImage net (customs k) (seeds k) s.imageKeyword).1) ∧
    (jsTruthy (customs k) = true →
      (slideImage net (customs k) (seeds k) s.imageKeyword).1 = customs k ∧
      (slideImage net (customs k) (seeds k) s.imageKeyword).2 = []) ∧
    (jsTruthy (customs k) = false →
      (slideImage net (customs k) (seeds k) s.imageKeyword).1 =
        (if getBase64FromUrl net (picsumUrl (jsOrDefault (seeds k) s.imageKeyword)) == ""
         then none
         else some (getBase64FromUrl net (picsumUrl (jsOrDefault (seeds k) s.imageKeyword)))) ∧
      (slideImage net (customs k) (seeds k) s.imageKeyword).2 =
        [picsumUrl (jsOrDefault (seeds k) s.imageKeyword)]) := by
  refine ⟨?_, ?_, ?_⟩
  · rw [downloadPPTX_pages_eq, List.getElem?_cons_succ,
      buildSlides_get net theme p.includeImages seeds customs p.slides 0 k, hs]
    simp [buildContentPage, hinc]
  · intro hc
    rw [slideImage_of_truthy hc]
    exact ⟨rfl, rfl⟩
  · intro hc
    rw [slideImage_of_falsy hc]
    exact ⟨rfl, rfl⟩

/-- Claim C4: `downloadPPTX` is total (the embedded routine returns
normally on every input, never rethrowing); when the final write step
fails, the error is logged and surfaced as exactly one user
notification, no file name is saved, and the deck comes back
unchanged — the export never mutates it.  In the source the
`try/catch` wraps the filename computation and `pres.writeFile`, which
is where document assembly and serialization happen; the PptxGenJS
calls before it only record content. -/
theorem C4_write_failure_contained (net : NetOracle) (writeOk : Bool)
    (p : Presentation) (theme : Theme) (seeds : Nat → Option String)
    (bg : Option String) (customs : Nat → Option String) :
    (downloadPPTX net writeOk p theme seeds bg customs).deck = p ∧
    (writeOk = false →
      (downloadPPTX net writeOk p theme seeds bg customs).alerts = [saveErrorAlert] ∧
      (downloadPPTX net writeOk p theme seeds bg customs).loggedErrors = [saveErrorLog] ∧
      (downloadPPTX net writeOk p theme seeds bg customs).savedFileName = none) := by
  cases writeOk
  · exact ⟨rfl, fun _ => ⟨rfl, rfl, rfl⟩⟩
  · exact ⟨rfl, fun h => nomatch h⟩

/-- Claim C8: when `includeImages` is false no image-fetch network
request is issued, whatever the slides, seeds and custom images are. -/
theorem C8_no_fetch_when_disabled (net : NetOracle) (writeOk : Bool)
    (p : Presentation) (theme : Theme) (seeds : Nat → Option String)
    (bg : Option String) (customs : Nat → Option String)
    (h : p.includeImages = false) :
    (downloadPPTX net writeOk p theme seeds bg customs).fetchedUrls = [] := by
  rw [downloadPPTX_urls_eq, h, buildSlides_urls_nil]

/-- Claim C9: an empty-string custom-image entry is falsy, so the
slide behaves exactly as if the entry were absent (the remote-fetch
fallback runs); likewise an empty-string seed entry falls back to the
slide's own keyword. -/
theorem C9_empty_entries_fall_back (net : NetOracle) (custom seedOv : Option String)
    (keyword : String) :
    slideImage net (some emptyStr) seedOv keyword = slideImage net none seedOv keyword ∧
    slideImage net custom (some emptyStr) keyword = slideImage net custom none keyword := by
  have h1 : jsTruthy (some emptyStr) = false := by decide
  have h2 : jsTruthy (none : Option String) = false := rfl
  constructor
  · rw [slideImage_of_falsy h1, slideImage_of_falsy h2]
  · cases hct : jsTruthy custom with
    | true => rw [slideImage_of_truthy hct, slideImage_of_truthy hct]
    | false =>
      rw [slideImage_of_falsy hct, slideImage_of_falsy hct,
        jsOrDefault_falsy h1, jsOrDefault_falsy h2]

/-- Claim C10: the master-slide layout applies uniformly — every page,
cover included, references the single master; with no custom
background the master carries the theme's flat background color, the
accent-colored bottom bar, and a slide-number label in the theme's
secondary hex color; with a custom background image that image
replaces the background and the bottom bar is absent. -/
theorem C10_master_uniform (net : NetOracle) (writeOk : Bool) (p : Presentation)
    (theme : Theme) (seeds : Nat → Option String) (bg : Option String)
    (customs : Nat → Option String) :
    (∀ pg ∈ (downloadPPTX net writeOk p theme seeds bg customs).doc.pages,
      pg.masterName = (downloadPPTX net writeOk p theme seeds bg customs).doc.master.title) ∧
    (downloadPPTX net writeOk p theme seeds bg customs).doc.master.slideNumberColor
        = theme.colors.hex.secondary ∧
    (downloadPPTX net writeOk p theme seeds bg customs).doc.master.slideNumberFontSize = 12 ∧
    (jsTruthy bg = false →
      (downloadPPTX net writeOk p theme seeds bg customs).doc.master.background
          = Background.flat theme.colors.hex.bg ∧
      (downloadPPTX net writeOk p theme seeds bg customs).doc.master.bottomBarFill
          = some theme.colors.hex.accent) ∧
    (jsTruthy bg = true →
      (downloadPPTX net writeOk p theme seeds bg customs).doc.master.background
          = Background.image (Option.getD bg emptyStr) ∧
      (downloadPPTX net writeOk p theme seeds bg customs).doc.master.bottomBarFill
          = none) := by
  rw [downloadPPTX_master_eq, downloadPPTX_pages_eq]
  refine ⟨?_, rfl, rfl, ?_, ?_⟩
  · intro pg hpg
    rcases List.mem_cons.mp hpg with h1 | h2
    · rw [h1]; rfl
    · rw [buildSlides_masterName net theme p.includeImages seeds customs p.slides 0 pg h2]
      rfl
  · intro hbg
    constructor <;> simp [buildMaster, hbg]
  · intro hbg
    constructor <;> simp [buildMaster, hbg]

/-! ### Concrete witnesses -/

def sampleDataUri : String := "data:image/png;base64,iVBOR"

def sampleNet : NetOracle := fun _ => (100, NetResult.success true sampleDataUri)

def noneMap : Nat → Option String := fun _ => none

def customMap : Nat → Option String := fun _ => some sampleDataUri

def sampleSlide : Slide :=
  { title := "intro", content := [ "a", "b" ], imageKeyword := "cat",
    speakerNotes := none }

def sampleDeck : Presentation :=
  { mainTitle := "Deck", subTitle := none, slides := [sampleSlide],
    includeImages := true }

def sampleDeckNoImages : Presentation :=
  { mainTitle := "Deck", subTitle := none, slides := [sampleSlide],
    includeImages := false }

/-- Witness for C2 at a concrete deck: page 1 carries exactly the image
`slideImage` selects for slide 0. -/
theorem C2_witness :
    ((downloadPPTX sampleNet true sampleDeck modernSlate noneMap none noneMap).doc.pages[1]?).map Page.images
      = some (optionToList (slideImage sampleNet none none sampleSlide.imageKeyword).1) := by
  have h := C2_image_precedence sampleNet true sampleDeck modernSlate noneMap none
    noneMap 0 sampleSlide rfl rfl
  exact h.1

/-- Witness for C4 at a concrete failing write: one alert, deck
unchanged. -/
theorem C4_witness :
    (downloadPPTX sampleNet false sampleDeck modernSlate noneMap none noneMap).alerts
        = [saveErrorAlert] ∧
    (downloadPPTX sampleNet false sampleDeck modernSlate noneMap none noneMap).deck
        = sampleDeck := by
  have h := C4_write_failure_contained sampleNet false sampleDeck modernSlate noneMap
    none noneMap
  exact ⟨(h.2 rfl).1, h.1⟩

/-- Witness for C8 at a concrete deck with images disabled and
non-trivial seed and custom-image maps: no fetch is issued. -/
theorem C8_witness :
    (downloadPPTX sampleNet true sampleDeckNoImages modernSlate customMap none
      customMap).fetchedUrls = [] :=
  C8_no_fetch_when_disabled sampleNet true sampleDeckNoImages modernSlate customMap
    none customMap rfl

/-- Witness for C10 at a concrete deck with no custom background: the
cover page references the master, and the master carries the accent
bottom bar. -/
theorem C10_witness :
    (buildCoverPage modernSlate sampleDeck).masterName
        = (downloadPPTX sampleNet true sampleDeck modernSlate noneMap none noneMap).doc.master.title ∧
    (downloadPPTX sampleNet true sampleDeck modernSlate noneMap none noneMap).doc.master.bottomBarFill
        = some modernSlate.colors.hex.accent := by
  have h := C10_master_uniform sampleNet true sampleDeck modernSlate noneMap none noneMap
  refine ⟨h.1 (buildCoverPage modernSlate sampleDeck) ?_, (h.2.2.2.1 rfl).2⟩
  rw [downloadPPTX_pages_eq]
  exact List.mem_cons_self _ _

end FlowerSlide
